import Mathlib

/-!
Shallow embedding of the Grove CLI task manager
(src/grove/cli.py, src/grove/beads.py, src/grove/db.py, src/grove/models.py).

Database tables are modelled as lists of rows; each CLI command becomes a
pure function from the table state (and its arguments) to a result and a new
table state.  The session of db.py commits at the end of a command and rolls
back on an uncaught exception; a command that only reads, or that returns
before adding rows, therefore leaves the state unchanged, which the
embedding reflects by returning the input table unchanged.
-/

namespace Grove

/-- Row of the buds table (models.py, class Bud); only the columns the
verified commands read are carried. -/
structure Bud where
  id : Nat
  status : String
  title : String
  stem_id : Option Nat
  trunk_id : Option Nat
  grove_id : Option Nat
  deriving Repr, DecidableEq

/-- Row of the bud_dependencies table (models.py, class BudDependency). -/
structure BudDependency where
  bud_id : Nat
  depends_on_id : Nat
  dependency_type : String
  deriving Repr, DecidableEq

/-- The scalar subquery inside `pulse` (cli.py lines 209-216): ids of buds
that have a dependency row of type "blocks" joined to a blocker bud whose
status is not "bloomed".  The surrounding query only tests membership in
this collection (`~Bud.id.in_(...)`), so it is embedded as the list of
`bud_id` values of the qualifying dependency rows. -/
def blockedSubq (buds : List Bud) (deps : List BudDependency) : List Nat :=
  (deps.filter (fun d =>
      d.dependency_type == "blocks" &&
        buds.any (fun b => b.id == d.depends_on_id && b.status != "bloomed"))).map
    (fun d => d.bud_id)

/-- `pulse` (cli.py lines 196-229): the budding buds whose id is not in
`blockedSubq`. -/
def pulse (buds : List Bud) (deps : List BudDependency) : List Bud :=
  buds.filter (fun b =>
    b.status == "budding" && !((blockedSubq buds deps).contains b.id))

/-! ## chain and blocks: definitions (cli.py lines 340-463) -/

/-- Outcome printed by the `chain` command (cli.py lines 414-463). -/
inductive ChainOutcome where
  | tooFew
  | missingBud (id : Nat)
  | ok (created : Nat)
  deriving Repr, DecidableEq

/-- The consecutive pairs (blocker, blocked) walked by `chain`
(cli.py lines 441-443: item i blocks item i+1). -/
def chainPairs (ids : List Nat) : List (Nat × Nat) :=
  ids.zip ids.tail

/-- The dependency rows one `chain` call adds (cli.py lines 440-458).  The
duplicate lookup (lines 446-449) queries the session, whose autoflush is
disabled (db.py line 19), so rows added earlier in the same call are not
visible to it: every pair is checked against the table as it stood when the
command began, and the new rows are flushed together at the final commit. -/
def chainEdges (deps : List BudDependency) (ids : List Nat) : List BudDependency :=
  (chainPairs ids).filterMap (fun p =>
    if deps.any (fun d => d.bud_id == p.2 && d.depends_on_id == p.1) then none
    else some ⟨p.2, p.1, "blocks"⟩)

/-- `chain` (cli.py lines 414-463): checks the length guard, then verifies
every referenced Bud id in order (lines 430-437, returning at the first
missing one before any edge is created), then adds the non-duplicate edges
and commits.  Returns the printed outcome and the bud_dependencies table
after the command. -/
def chain (buds : List Bud) (deps : List BudDependency) (ids : List Nat) :
    ChainOutcome × List BudDependency :=
  if ids.length < 2 then (ChainOutcome.tooFew, deps)
  else
    match ids.find? (fun i => !buds.any (fun b => b.id == i)) with
    | some i => (ChainOutcome.missingBud i, deps)
    | none =>
      let grown := chainEdges deps ids
      (ChainOutcome.ok grown.length, deps ++ grown)

/-- Outcome printed by the `blocks` command (cli.py lines 340-385). -/
inductive BlocksOutcome where
  | blockerNotFound (id : Nat)
  | blockedNotFound (id : Nat)
  | selfBlock
  | duplicate
  | created
  deriving Repr, DecidableEq

/-- `blocks` (cli.py lines 340-385): looks up both buds, rejects a missing
blocker or blocked bud, rejects `blocker_id == blocked_id` (line 364),
rejects an already existing row (lines 369-376), otherwise inserts one
"blocks" dependency row.  Returns the printed outcome and the
bud_dependencies table after the command. -/
def blocks (buds : List Bud) (deps : List BudDependency)
    (blocker_id blocked_id : Nat) : BlocksOutcome × List BudDependency :=
  match buds.find? (fun b => b.id == blocker_id) with
  | none => (BlocksOutcome.blockerNotFound blocker_id, deps)
  | some _ =>
    match buds.find? (fun b => b.id == blocked_id) with
    | none => (BlocksOutcome.blockedNotFound blocked_id, deps)
    | some _ =>
      if blocker_id == blocked_id then (BlocksOutcome.selfBlock, deps)
      else if deps.any (fun d => d.bud_id == blocked_id && d.depends_on_id == blocker_id) then
        (BlocksOutcome.duplicate, deps)
      else (BlocksOutcome.created, deps ++ [⟨blocked_id, blocker_id, "blocks"⟩])

/-- A sample budding bud row, used by concrete witness inputs. -/
def budRow (i : Nat) : Bud :=
  ⟨i, "budding", "bud", none, none, none⟩

/-! ## tidy split: definitions (cli.py lines 3816-3843 and 3898-3925) -/

/-- A child row as the tidy N-way split sees it: id and title. -/
structure SplitChild where
  id : Nat
  title : String
  deriving Repr, DecidableEq

/-- The chunk sizes of the tidy N-way split: `chunk_size = len // n`,
`remainder = len % n` (cli.py lines 3822-3823, 3904-3905), and chunk i has
size `chunk_size + (1 if i < remainder else 0)` (lines 3831, 3913). -/
def splitSizes (len n : Nat) : List Nat :=
  (List.range n).map (fun i => len / n + if i < len % n then 1 else 0)

/-- Cutting a list into consecutive chunks of the given sizes, as the loop
`chunk = sorted[start:start+size]; start += size` does
(cli.py lines 3829-3833, 3911-3915). -/
def chunksBy : List Nat → List SplitChild → List (List SplitChild)
  | [], _ => []
  | s :: ss, l => l.take s :: chunksBy ss (l.drop s)

/-- The comparison of `sorted(children, key=lambda b: b.title)`. -/
def titleLe (a b : SplitChild) : Bool :=
  decide (a.title ≤ b.title)

/-- The tidy N-way split (cli.py lines 3822-3839 for stems, 3904-3921 for
buds): sort the children by title and cut the sorted list into n
consecutive chunks of the `splitSizes` sizes. -/
def splitChildren (children : List SplitChild) (n : Nat) : List (List SplitChild) :=
  chunksBy (splitSizes children.length n) (children.mergeSort titleLe)

/-! ## beads status maps: definitions (beads.py lines 98-146) -/

/-- ASCII lower-casing of one character, as Python str.lower() acts on the
ASCII status strings these maps receive. -/
def lowerChar (c : Char) : Char :=
  if 65 ≤ c.toNat ∧ c.toNat ≤ 90 then Char.ofNat (c.toNat + 32) else c

/-- Python str.lower() (library behaviour, modelled for ASCII input). -/
def pyLower (s : String) : String :=
  String.mk (s.data.map lowerChar)

/-- `map_bead_status_to_task_status` (beads.py lines 98-113): dictionary
lookup on the lower-cased bead status, defaulting to "inbox". -/
def map_bead_status_to_task_status (bead_status : String) : String :=
  let s := pyLower bead_status
  if s = "open" then "inbox"
  else if s = "in_progress" then "active"
  else if s = "hooked" then "active"
  else if s = "closed" then "done"
  else if s = "done" then "done"
  else if s = "wont_fix" then "dropped"
  else if s = "duplicate" then "dropped"
  else "inbox"

/-- `map_task_status_to_bead_status` (beads.py lines 134-146): dictionary
lookup on the lower-cased task status, defaulting to "open". -/
def map_task_status_to_bead_status (task_status : String) : String :=
  let s := pyLower task_status
  if s = "inbox" then "open"
  else if s = "active" then "in_progress"
  else if s = "done" then "closed"
  else if s = "dropped" then "wont_fix"
  else "open"

/-! ## beads JSONL reader: definitions (beads.py lines 11-24 and 54-95) -/

/-- A bead record as `read_beads_jsonl` constructs it (beads.py lines
11-24 and 78-90): the fields extracted from one well-formed JSONL line. -/
structure Bead where
  id : String
  title : String
  description : Option String
  status : String
  priority : Int
  issue_type : String
  assignee : Option String
  owner : Option String
  created_at : Option String
  updated_at : Option String
  created_by : Option String
  deriving Repr, DecidableEq

/-- One line of issues.jsonl as the reader classifies it (beads.py lines
72-93): blank after strip, malformed (json.loads raises and the line is
skipped), or well formed (json.loads succeeds and the Bead carries the
extracted fields).  json.loads is Python library code outside this
repository, so a line is modelled by its parse result. -/
inductive JsonlLine where
  | blank
  | malformed (raw : String)
  | record (b : Bead)
  deriving Repr, DecidableEq

/-- The record a line contributes, if any. -/
def JsonlLine.toRecord : JsonlLine → Option Bead
  | JsonlLine.blank => none
  | JsonlLine.malformed _ => none
  | JsonlLine.record b => some b

/-- Whether a line is well formed. -/
def JsonlLine.isRecord : JsonlLine → Bool
  | JsonlLine.record _ => true
  | _ => false

/-- `read_beads_jsonl` (beads.py lines 54-95): raises FileNotFoundError
when issues.jsonl does not exist (modelled as `Except.error`; the file is
`none`), otherwise collects one Bead per well-formed line in order,
skipping blank and malformed lines. -/
def read_beads_jsonl (file : Option (List JsonlLine)) : Except String (List Bead) :=
  match file with
  | none => Except.error "FileNotFoundError: no issues.jsonl"
  | some lines => Except.ok (lines.filterMap JsonlLine.toRecord)

/-! ## why traversal: definitions (cli.py lines 511-612) -/

/-- Row of the stems table that `why` reads. -/
structure StemRow where
  id : Nat
  trunk_id : Option Nat
  deriving Repr, DecidableEq

/-- Row of the trunks table that `why` reads. -/
structure TrunkRow where
  id : Nat
  grove_id : Option Nat
  deriving Repr, DecidableEq

/-- Row of the groves table that `why` reads. -/
structure GroveRow where
  id : Nat
  deriving Repr, DecidableEq

/-- One displayed ancestor line of `why`, tagged with the code path that
printed it: the stem (line 545), the trunk reached through the stem
(line 556), the grove reached through that trunk (line 568), the direct
trunk (line 579), the grove reached through the direct trunk (line 591),
or the direct grove (line 602). -/
inductive WhyEntry where
  | stemLine (id : Nat)
  | trunkViaStem (id : Nat)
  | groveViaStemTrunk (id : Nat)
  | trunkDirect (id : Nat)
  | groveViaDirectTrunk (id : Nat)
  | groveDirect (id : Nat)
  deriving Repr, DecidableEq

/-- Whether an entry displays the Stem level. -/
def WhyEntry.isStemLevel : WhyEntry → Bool
  | WhyEntry.stemLine _ => true
  | _ => false

/-- Whether an entry displays the Trunk level. -/
def WhyEntry.isTrunkLevel : WhyEntry → Bool
  | WhyEntry.trunkViaStem _ => true
  | WhyEntry.trunkDirect _ => true
  | _ => false

/-- Whether an entry displays the Grove level. -/
def WhyEntry.isGroveLevel : WhyEntry → Bool
  | WhyEntry.groveViaStemTrunk _ => true
  | WhyEntry.groveViaDirectTrunk _ => true
  | WhyEntry.groveDirect _ => true
  | _ => false

/-- Output of the stem path of `why` (cli.py lines 534-571): the displayed
entries and the shown_stem / shown_trunk / shown_grove flags. -/
structure WhyStemOut where
  entries : List WhyEntry
  shown_stem : Bool
  shown_trunk : Bool
  shown_grove : Bool
  deriving Repr, DecidableEq

/-- Output of the direct-trunk block of `why` (cli.py lines 573-594): the
displayed entries and the updated shown_trunk / shown_grove flags. -/
structure WhyTrunkOut where
  entries : List WhyEntry
  shown_trunk : Bool
  shown_grove : Bool
  deriving Repr, DecidableEq

/-- The stem path of `why` (cli.py lines 539-571): if the bud has a stem
link and the stem row exists, display it; then, if that stem has a trunk
link and the trunk row exists, display it; then, if that trunk has a grove
link and the grove row exists, display it.  Each display sets its shown
flag. -/
def whyStemPart (bud : Bud) (stems : List StemRow) (trunks : List TrunkRow)
    (groves : List GroveRow) : WhyStemOut :=
  match bud.stem_id with
  | none => ⟨[], false, false, false⟩
  | some sid =>
    match stems.find? (fun s => s.id == sid) with
    | none => ⟨[], false, false, false⟩
    | some st =>
      match st.trunk_id with
      | none => ⟨[WhyEntry.stemLine st.id], true, false, false⟩
      | some tid =>
        match trunks.find? (fun t => t.id == tid) with
        | none => ⟨[WhyEntry.stemLine st.id], true, false, false⟩
        | some tr =>
          match tr.grove_id with
          | none =>
            ⟨[WhyEntry.stemLine st.id, WhyEntry.trunkViaStem tr.id], true, true, false⟩
          | some gid =>
            match groves.find? (fun g => g.id == gid) with
            | none =>
              ⟨[WhyEntry.stemLine st.id, WhyEntry.trunkViaStem tr.id], true, true, false⟩
            | some gr =>
              ⟨[WhyEntry.stemLine st.id, WhyEntry.trunkViaStem tr.id,
                WhyEntry.groveViaStemTrunk gr.id], true, true, true⟩

/-- The direct-trunk block of `why` (cli.py lines 573-594): runs only when
the bud has a direct trunk link and no trunk was shown yet; inside it the
trunk's grove is shown only when no grove was shown yet. -/
def whyTrunkDirectPart (bud : Bud) (trunks : List TrunkRow) (groves : List GroveRow)
    (shown_trunk shown_grove : Bool) : WhyTrunkOut :=
  match bud.trunk_id, shown_trunk with
  | some tid, false =>
    (match trunks.find? (fun t => t.id == tid) with
     | none => ⟨[], false, shown_grove⟩
     | some tr =>
       match tr.grove_id, shown_grove with
       | some gid, false =>
         (match groves.find? (fun g => g.id == gid) with
          | none => ⟨[WhyEntry.trunkDirect tr.id], true, false⟩
          | some gr =>
            ⟨[WhyEntry.trunkDirect tr.id, WhyEntry.groveViaDirectTrunk gr.id], true, true⟩)
       | _, _ => ⟨[WhyEntry.trunkDirect tr.id], true, shown_grove⟩)
  | _, _ => ⟨[], shown_trunk, shown_grove⟩

/-- The direct-grove block of `why` (cli.py lines 596-605): runs only when
the bud has a direct grove link and no grove was shown yet. -/
def whyGroveDirectPart (bud : Bud) (groves : List GroveRow) (shown_grove : Bool) :
    List WhyEntry :=
  match bud.grove_id, shown_grove with
  | some gid, false =>
    (match groves.find? (fun g => g.id == gid) with
     | none => []
     | some gr => [WhyEntry.groveDirect gr.id])
  | _, _ => []

/-- `why` (cli.py lines 511-612): the displayed ancestor lines in order —
the stem path, then the direct-trunk block, then the direct-grove block,
the later blocks guarded by the shown flags of the earlier ones. -/
def why (bud : Bud) (stems : List StemRow) (trunks : List TrunkRow)
    (groves : List GroveRow) : List WhyEntry :=
  let a := whyStemPart bud stems trunks groves
  let b := whyTrunkDirectPart bud trunks groves a.shown_trunk a.shown_grove
  let c := whyGroveDirectPart bud groves b.shown_grove
  a.entries ++ b.entries ++ c

/-! ## stem link: definitions (cli.py lines 626-654) -/

/-- Row of the stems table as `stem link` reads and writes it. -/
structure StemLinkRow where
  id : Nat
  title : String
  beads_repo : Option String
  deriving Repr, DecidableEq

/-- A Python value a local of `link` may hold. -/
inductive PyVal where
  | vint (n : Nat)
  | vstr (s : String)
  | vnone
  | voptStem (o : Option StemLinkRow)
  deriving Repr, DecidableEq

/-- Python truthiness of such a value (`if not s:` takes the reported
branch exactly when the value is falsy). -/
def PyVal.isFalsy : PyVal → Bool
  | PyVal.vint n => n == 0
  | PyVal.vstr s => s == ""
  | PyVal.vnone => true
  | PyVal.voptStem o => o.isNone

/-- Python local-name lookup: reading a name that no statement of the
function has bound raises NameError. -/
def lookupName (frame : List (String × PyVal)) (n : String) : Option PyVal :=
  (frame.find? (fun p => p.1 == n)).map (fun p => p.2)

/-- Result of the `stem link` command. -/
inductive LinkResult where
  | nameError (name : String)
  | notFoundReported
  | linked (path : String)
  deriving Repr, DecidableEq

/-- `link` (cli.py lines 626-654): line 643 binds the query result to the
local `br`, so the frame holds `stem_id`, `beads_path` and `br`; line 644
then reads the name `s`, which no line of the function binds, so Python
raises NameError before the not-found message can print; the uncaught
exception rolls back the session (db.py lines 31-36) and the stems table
is unchanged.  Were the name defined, the falsy branch would report
not-found and the truthy branch would set beads_repo and commit.
`beads push` (cli.py line 805) and `beads pull` (line 929) repeat the same
`br`-versus-`s` pattern. -/
def link (stems : List StemLinkRow) (stem_id : Nat) (beads_path : String) :
    LinkResult × List StemLinkRow :=
  let br := stems.find? (fun st => st.id == stem_id)
  let frame := [("stem_id", PyVal.vint stem_id), ("beads_path", PyVal.vstr beads_path),
                ("br", PyVal.voptStem br)]
  match lookupName frame "s" with
  | none => (LinkResult.nameError "s", stems)
  | some v =>
    if v.isFalsy then (LinkResult.notFoundReported, stems)
    else
      (LinkResult.linked beads_path,
        stems.map (fun st =>
          if st.id == stem_id then { st with beads_repo := some beads_path } else st))

/-! ## context: definitions (cli.py lines 77-91 and 2606-2777) -/

/-- An item row as `context` reads and mutates it: the type tag and id it
is looked up by, the last_checked_at column the command writes, the
updated_at column that every item model declares with
`onupdate=datetime.utcnow` (models.py lines 49, 72, 117, 169) so that any
UPDATE of the row rewrites it too, and the rest of its columns, which the
command only reads, abstracted as an opaque payload. -/
structure CtxItem where
  item_type : String
  id : Nat
  last_checked_at : Option Nat
  updated_at : Nat
  payload : String
  deriving Repr, DecidableEq

/-- Row of the activity_log table (models.py lines 254-270). -/
structure ActivityLogRow where
  item_type : String
  item_id : Nat
  event_type : String
  content : Option String
  session_id : Option String
  deriving Repr, DecidableEq

/-- `log_activity` (cli.py lines 77-91): appends one activity_log row,
content defaulting to None and session_id read from the environment. -/
def log_activity (log : List ActivityLogRow) (item_type : String) (item_id : Nat)
    (event_type : String) (content : Option String) (session_id : Option String) :
    List ActivityLogRow :=
  log ++ [⟨item_type, item_id, event_type, content, session_id⟩]

/-- The database state the `context` command touches. -/
structure CtxState where
  items : List CtxItem
  log : List ActivityLogRow
  deriving Repr, DecidableEq

/-- `context` (cli.py lines 2606-2777): look the item up by (type, id); a
missing item is reported and nothing changes; the body only reads and
prints; at the end (lines 2773-2777), unless --peek was given, set the
item's last_checked_at to now, append one 'checked' activity_log row via
`log_activity`, and commit.  The commit issues an UPDATE of the item row,
and the `onupdate=datetime.utcnow` hook on the updated_at column
(models.py lines 49, 72, 117, 169) rewrites updated_at on that same
UPDATE, so the non-peek path mutates both columns; with --peek no UPDATE
is issued at all. -/
def context (st : CtxState) (item_type : String) (item_id : Nat) (peek : Bool)
    (now : Nat) (session_id : Option String) : CtxState :=
  match st.items.find? (fun it => it.item_type == item_type && it.id == item_id) with
  | none => st
  | some _ =>
    if peek then st
    else
      { items := st.items.map (fun it =>
          if it.item_type == item_type && it.id == item_id then
            { it with last_checked_at := some now, updated_at := now }
          else it),
        log := log_activity st.log item_type item_id "checked" none session_id }

/-! ## Theorems -/

/-- Membership in the `pulse` anti-join subquery, unfolded. -/
theorem mem_blockedSubq (buds : List Bud) (deps : List BudDependency) (i : Nat) :
    i ∈ blockedSubq buds deps ↔
      ∃ d ∈ deps, d.dependency_type = "blocks" ∧ d.bud_id = i ∧
        ∃ c ∈ buds, c.id = d.depends_on_id ∧ c.status ≠ "bloomed" := by
  simp only [blockedSubq, List.mem_map, List.mem_filter, Bool.and_eq_true, beq_iff_eq,
    List.any_eq_true, bne_iff_ne, ne_eq]
  aesop

/-- C1: a Bud is returned by `pulse` iff it is a row of the buds table, its
status is "budding", and it has no incoming "blocks" dependency row whose
blocker Bud (a row of the buds table) has a status other than "bloomed"; in
particular a Bud with no dependency rows is never excluded. -/
theorem pulse_mem_iff (buds : List Bud) (deps : List BudDependency) (b : Bud) :
    b ∈ pulse buds deps ↔
      b ∈ buds ∧ b.status = "budding" ∧
        ¬ ∃ d ∈ deps, d.dependency_type = "blocks" ∧ d.bud_id = b.id ∧
            ∃ c ∈ buds, c.id = d.depends_on_id ∧ c.status ≠ "bloomed" := by
  have h1 : b ∈ pulse buds deps ↔
      b ∈ buds ∧ b.status = "budding" ∧ ¬ b.id ∈ blockedSubq buds deps := by
    simp [pulse, List.mem_filter, and_assoc]
  rw [h1, mem_blockedSubq]

/-- When every referenced id exists, the missing-bud scan finds nothing. -/
theorem chain_find_none (buds : List Bud) (ids : List Nat)
    (hex : ∀ i ∈ ids, ∃ b ∈ buds, b.id = i) :
    ids.find? (fun i => !buds.any (fun b => b.id == i)) = none := by
  rw [List.find?_eq_none]
  intro i hi
  obtain ⟨b, hb, rfl⟩ := hex i hi
  simp only [Bool.not_eq_true', List.any_eq_false, not_forall, Bool.not_eq_false]
  exact ⟨b, hb, by simp⟩

/-- C2: `chain` is idempotent with respect to edge creation.  For every
list of at least two existing Bud ids, the second run of `chain` on the
same list creates zero new dependency rows and leaves the table exactly as
the first run left it; moreover, starting from an empty dependency table a
single run creates exactly `ids.length - 1` rows (so `chain a b c` run
twice leaves 2 rows, not 4). -/
theorem chain_idempotent (buds : List Bud) (deps : List BudDependency) (ids : List Nat)
    (h2 : 2 ≤ ids.length) (hex : ∀ i ∈ ids, ∃ b ∈ buds, b.id = i) :
    chain buds (chain buds deps ids).2 ids =
      (ChainOutcome.ok 0, (chain buds deps ids).2) ∧
    (chain buds [] ids).2.length = ids.length - 1 := by
  have hlt : ¬ ids.length < 2 := Nat.not_lt.mpr h2
  have hfind := chain_find_none buds ids hex
  have hrun1 : chain buds deps ids =
      (ChainOutcome.ok (chainEdges deps ids).length, deps ++ chainEdges deps ids) := by
    simp [chain, hlt, hfind]
  constructor
  · rw [hrun1]
    have hnil : chainEdges (deps ++ chainEdges deps ids) ids = [] := by
      rw [chainEdges, List.filterMap_eq_nil_iff]
      intro p hp
      by_cases hdup : deps.any (fun d => d.bud_id == p.2 && d.depends_on_id == p.1) = true
      · have : (deps ++ chainEdges deps ids).any
            (fun d => d.bud_id == p.2 && d.depends_on_id == p.1) = true := by
          rw [List.any_append, hdup, Bool.true_or]
        simp [this]
      · have hmem : (⟨p.2, p.1, "blocks"⟩ : BudDependency) ∈ chainEdges deps ids := by
          rw [chainEdges, List.mem_filterMap]
          exact ⟨p, hp, by simp [hdup]⟩
        have : (deps ++ chainEdges deps ids).any
            (fun d => d.bud_id == p.2 && d.depends_on_id == p.1) = true := by
          rw [List.any_eq_true]
          exact ⟨⟨p.2, p.1, "blocks"⟩, List.mem_append_right _ hmem, by simp⟩
        simp [this]
    simp [chain, hlt, hfind, hnil]
  · have hrun0 : chain buds [] ids =
        (ChainOutcome.ok (chainEdges [] ids).length, [] ++ chainEdges [] ids) := by
      simp [chain, hlt, hfind]
    rw [hrun0]
    have : chainEdges [] ids = (chainPairs ids).map (fun p => ⟨p.2, p.1, "blocks"⟩) := by
      rw [chainEdges, List.filterMap_eq_map_iff_forall_eq_some.mpr ?_]
      intro p hp
      simp
    rw [List.nil_append, this, List.length_map, chainPairs, List.length_zip,
      List.length_tail]
    omega

/-- C2 witness: `chain 1 2 3` on three existing buds creates two edges and
a second run creates none, leaving the same two rows. -/
theorem chain_idempotent_witness :
    (2 ≤ ([1, 2, 3] : List Nat).length ∧
      ∀ i ∈ ([1, 2, 3] : List Nat), ∃ b ∈ [budRow 1, budRow 2, budRow 3], b.id = i) ∧
    chain [budRow 1, budRow 2, budRow 3]
        (chain [budRow 1, budRow 2, budRow 3] [] [1, 2, 3]).2 [1, 2, 3] =
      (ChainOutcome.ok 0, (chain [budRow 1, budRow 2, budRow 3] [] [1, 2, 3]).2) ∧
    (chain [budRow 1, budRow 2, budRow 3] [] [1, 2, 3]).2.length = ([1, 2, 3] : List Nat).length - 1 := by
  refine ⟨⟨by decide, by decide⟩, ?_⟩
  exact chain_idempotent [budRow 1, budRow 2, budRow 3] [] [1, 2, 3] (by decide) (by decide)

/-- C3 counterexample: `chain 1 2 99` with buds 1 and 2 existing and bud 99
missing reports the missing id and creates NO dependency row at all — in
particular the edge 1 → 2, whose two endpoints pass validation, is not
created, so no partial chain exists. -/
theorem chain_missing_no_partial_counterexample :
    chain [budRow 1, budRow 2] [] [1, 2, 99] = (ChainOutcome.missingBud 99, []) ∧
      (⟨2, 1, "blocks"⟩ : BudDependency) ∉ (chain [budRow 1, budRow 2] [] [1, 2, 99]).2 := by
  constructor
  · rfl
  · intro h
    simp [chain] at h
    revert h
    decide

/-- C3 amended: when at least one referenced Bud id does not exist, `chain`
reports the first missing id and returns without raising; all ids are
verified before any edge is created, so the dependency table is left
completely unchanged (no partial chain). -/
theorem chain_missing_id_atomic (buds : List Bud) (deps : List BudDependency)
    (ids : List Nat) (h2 : 2 ≤ ids.length)
    (hmiss : ∃ j ∈ ids, ∀ b ∈ buds, b.id ≠ j) :
    (chain buds deps ids).2 = deps ∧
      ∃ j ∈ ids, (∀ b ∈ buds, b.id ≠ j) ∧
        (chain buds deps ids).1 = ChainOutcome.missingBud j := by
  have hlt : ¬ ids.length < 2 := Nat.not_lt.mpr h2
  have hsome : (ids.find? (fun i => !buds.any (fun b => b.id == i))).isSome := by
    rw [List.find?_isSome]
    obtain ⟨j, hj, hnb⟩ := hmiss
    refine ⟨j, hj, ?_⟩
    simp only [Bool.not_eq_true', List.any_eq_false]
    intro b hb
    simpa using hnb b hb
  obtain ⟨i, heq⟩ := Option.isSome_iff_exists.mp hsome
  have hp := List.find?_some heq
  have hmem := List.mem_of_find?_eq_some heq
  have hni : ∀ b ∈ buds, b.id ≠ i := by
    simp only [Bool.not_eq_true', List.any_eq_false] at hp
    intro b hb
    simpa using hp b hb
  exact ⟨by simp [chain, hlt, heq], i, hmem, hni, by simp [chain, hlt, heq]⟩

/-- C3 witness: the amended theorem applied to `chain 1 2 99`. -/
theorem chain_missing_id_atomic_witness :
    (2 ≤ ([1, 2, 99] : List Nat).length ∧
      ∃ j ∈ ([1, 2, 99] : List Nat), ∀ b ∈ [budRow 1, budRow 2], b.id ≠ j) ∧
    (chain [budRow 1, budRow 2] [] [1, 2, 99]).2 = [] ∧
      ∃ j ∈ ([1, 2, 99] : List Nat), (∀ b ∈ [budRow 1, budRow 2], b.id ≠ j) ∧
        (chain [budRow 1, budRow 2] [] [1, 2, 99]).1 = ChainOutcome.missingBud j := by
  refine ⟨⟨by decide, by decide⟩, ?_⟩
  exact chain_missing_id_atomic [budRow 1, budRow 2] [] [1, 2, 99] (by decide) (by decide)

/-- C4: for an existing Bud a, `blocks a a` is rejected as a self-block and
has no side effects: the dependency table is returned unchanged, whatever
rows (for example an earlier `blocks a b` edge) it already holds. -/
theorem blocks_self_rejected (buds : List Bud) (deps : List BudDependency) (a : Nat)
    (h : ∃ b ∈ buds, b.id = a) :
    blocks buds deps a a = (BlocksOutcome.selfBlock, deps) := by
  have hsome : (buds.find? (fun b => b.id == a)).isSome := by
    rw [List.find?_isSome]
    obtain ⟨b, hb, rfl⟩ := h
    exact ⟨b, hb, by simp⟩
  obtain ⟨c, hc⟩ := Option.isSome_iff_exists.mp hsome
  simp [blocks, hc]

/-- C4 witness: after `blocks 1 2` has inserted its edge, `blocks 1 1` is
rejected and the table still holds exactly that one edge. -/
theorem blocks_self_rejected_witness :
    (∃ b ∈ [budRow 1, budRow 2], b.id = 1) ∧
    blocks [budRow 1, budRow 2] [⟨2, 1, "blocks"⟩] 1 1 =
      (BlocksOutcome.selfBlock, [⟨2, 1, "blocks"⟩]) := by
  exact ⟨by decide, blocks_self_rejected [budRow 1, budRow 2] [⟨2, 1, "blocks"⟩] 1 (by decide)⟩

/-- Chunking produces one chunk per requested size. -/
theorem chunksBy_length (ss : List Nat) (l : List SplitChild) :
    (chunksBy ss l).length = ss.length := by
  induction ss generalizing l with
  | nil => rfl
  | cons s ss ih => simp [chunksBy, ih]

/-- When the sizes sum to the list length, the chunks concatenate back to
the list. -/
theorem chunksBy_flatten (ss : List Nat) (l : List SplitChild) (h : ss.sum = l.length) :
    (chunksBy ss l).flatten = l := by
  induction ss generalizing l with
  | nil =>
    have : l = [] := List.eq_nil_of_length_eq_zero (by simpa using h.symm)
    simp [chunksBy, this]
  | cons s ss ih =>
    simp only [List.sum_cons] at h
    simp only [chunksBy, List.flatten_cons]
    rw [ih (l.drop s) (by simp; omega), List.take_append_drop]

/-- When the sizes sum to the list length, each chunk has its requested
size. -/
theorem chunksBy_map_length (ss : List Nat) (l : List SplitChild) (h : ss.sum = l.length) :
    (chunksBy ss l).map List.length = ss := by
  induction ss generalizing l with
  | nil => rfl
  | cons s ss ih =>
    simp only [List.sum_cons] at h
    simp only [chunksBy, List.map_cons, List.length_take]
    rw [ih (l.drop s) (by simp; omega), min_eq_left (by omega)]

/-- Sum of `base + (1 if i < rem else 0)` over `range n`. -/
theorem splitSizes_sum_aux (n base rem : Nat) :
    ((List.range n).map (fun i => base + if i < rem then 1 else 0)).sum
      = n * base + min rem n := by
  induction n with
  | zero => simp
  | succ n ih =>
    rw [List.range_succ, List.map_append, List.sum_append, ih]
    have hb : (n + 1) * base = n * base + base := by ring
    by_cases h : n < rem <;> simp [h] <;> omega

/-- The split sizes sum to the number of children. -/
theorem splitSizes_sum (len n : Nat) (hn : 0 < n) :
    (splitSizes len n).sum = len := by
  rw [splitSizes, splitSizes_sum_aux]
  have h1 : len % n < n := Nat.mod_lt _ hn
  have h2 : min (len % n) n = len % n := by omega
  rw [h2]
  exact Nat.div_add_mod len n

/-- Every split size is the base size or one more. -/
theorem splitSizes_mem (len n x : Nat) (hx : x ∈ splitSizes len n) :
    x = len / n ∨ x = len / n + 1 := by
  simp only [splitSizes, List.mem_map, List.mem_range] at hx
  obtain ⟨i, hi, rfl⟩ := hx
  by_cases h : i < len % n <;> simp [h]

/-- C5: for every list of children and every k ≥ 2, the tidy N-way split
sorts the children by title and cuts the sorted list into exactly k
consecutive chunks: the chunks concatenate back to the title-sorted input,
the chunk lengths sum to the number of children and differ pairwise by at
most 1, and chunk i has length `len / k + 1` for the first `len % k`
chunks and `len / k` for the rest. -/
theorem split_partition (children : List SplitChild) (k : Nat) (hk : 2 ≤ k) :
    (splitChildren children k).length = k ∧
    (splitChildren children k).flatten = children.mergeSort titleLe ∧
    ((splitChildren children k).map List.length).sum = children.length ∧
    (∀ c1 ∈ splitChildren children k, ∀ c2 ∈ splitChildren children k,
        c1.length ≤ c2.length + 1) ∧
    ∀ i, i < k →
      ((splitChildren children k).map List.length)[i]? =
        some (children.length / k + if i < children.length % k then 1 else 0) := by
  have hn : 0 < k := by omega
  have hlen : (children.mergeSort titleLe).length = children.length :=
    List.length_mergeSort children
  have hsum : (splitSizes children.length k).sum = (children.mergeSort titleLe).length := by
    rw [hlen, splitSizes_sum _ _ hn]
  have hmap := chunksBy_map_length (splitSizes children.length k)
    (children.mergeSort titleLe) hsum
  refine ⟨?_, ?_, ?_, ?_, ?_⟩
  · rw [splitChildren, chunksBy_length, splitSizes, List.length_map, List.length_range]
  · exact chunksBy_flatten _ _ hsum
  · rw [splitChildren, hmap, splitSizes_sum _ _ hn]
  · intro c1 hc1 c2 hc2
    have h1 : c1.length ∈ splitSizes children.length k := by
      rw [← hmap]
      exact List.mem_map_of_mem List.length hc1
    have h2 : c2.length ∈ splitSizes children.length k := by
      rw [← hmap]
      exact List.mem_map_of_mem List.length hc2
    rcases splitSizes_mem _ _ _ h1 with e1 | e1 <;>
      rcases splitSizes_mem _ _ _ h2 with e2 | e2 <;> omega
  · intro i hi
    rw [splitChildren, hmap, splitSizes, List.getElem?_map, List.getElem?_range hi]
    rfl

/-- C5 witness: the partition facts at a concrete five-child 2-way split. -/
theorem split_partition_witness :
    (2 ≤ 2 ∧
      (splitChildren [⟨1, "e"⟩, ⟨2, "c"⟩, ⟨3, "a"⟩, ⟨4, "d"⟩, ⟨5, "b"⟩] 2).length = 2) ∧
    (splitChildren [⟨1, "e"⟩, ⟨2, "c"⟩, ⟨3, "a"⟩, ⟨4, "d"⟩, ⟨5, "b"⟩] 2).flatten =
      ([⟨1, "e"⟩, ⟨2, "c"⟩, ⟨3, "a"⟩, ⟨4, "d"⟩, ⟨5, "b"⟩] : List SplitChild).mergeSort titleLe ∧
    ((splitChildren [⟨1, "e"⟩, ⟨2, "c"⟩, ⟨3, "a"⟩, ⟨4, "d"⟩, ⟨5, "b"⟩] 2).map List.length).sum =
      ([⟨1, "e"⟩, ⟨2, "c"⟩, ⟨3, "a"⟩, ⟨4, "d"⟩, ⟨5, "b"⟩] : List SplitChild).length ∧
    (∀ c1 ∈ splitChildren [⟨1, "e"⟩, ⟨2, "c"⟩, ⟨3, "a"⟩, ⟨4, "d"⟩, ⟨5, "b"⟩] 2,
        ∀ c2 ∈ splitChildren [⟨1, "e"⟩, ⟨2, "c"⟩, ⟨3, "a"⟩, ⟨4, "d"⟩, ⟨5, "b"⟩] 2,
        c1.length ≤ c2.length + 1) ∧
    ∀ i, i < 2 →
      ((splitChildren [⟨1, "e"⟩, ⟨2, "c"⟩, ⟨3, "a"⟩, ⟨4, "d"⟩, ⟨5, "b"⟩] 2).map
          List.length)[i]? =
        some (([⟨1, "e"⟩, ⟨2, "c"⟩, ⟨3, "a"⟩, ⟨4, "d"⟩, ⟨5, "b"⟩] : List SplitChild).length / 2 +
          if i < ([⟨1, "e"⟩, ⟨2, "c"⟩, ⟨3, "a"⟩, ⟨4, "d"⟩, ⟨5, "b"⟩] : List SplitChild).length % 2
          then 1 else 0) := by
  obtain ⟨h1, h2, h3, h4, h5⟩ :=
    split_partition [⟨1, "e"⟩, ⟨2, "c"⟩, ⟨3, "a"⟩, ⟨4, "d"⟩, ⟨5, "b"⟩] 2 (by decide)
  exact ⟨⟨by decide, h1⟩, h2, h3, h4, h5⟩

/-- C6 counterexample: the defined bead status "hooked" does not round-trip
through the task-status map: it maps to the task status "active", which
maps back to the bead status "in_progress", not "hooked". -/
theorem status_roundtrip_counterexample :
    map_bead_status_to_task_status "hooked" = "active" ∧
    map_task_status_to_bead_status (map_bead_status_to_task_status "hooked") =
      "in_progress" ∧
    map_task_status_to_bead_status (map_bead_status_to_task_status "hooked") ≠ "hooked" := by
  refine ⟨by decide, by decide, by decide⟩

/-- C6 amended: every defined task status (inbox, active, done, dropped)
maps to a bead status and back to itself, and the four canonical bead
statuses (open, in_progress, closed, wont_fix) map to a task status and
back to themselves; the alias bead statuses hooked, done and duplicate map
onto task statuses whose bead image is a different canonical status, so
they do not round-trip. -/
theorem status_roundtrip_amended :
    map_bead_status_to_task_status (map_task_status_to_bead_status "inbox") = "inbox" ∧
    map_bead_status_to_task_status (map_task_status_to_bead_status "active") = "active" ∧
    map_bead_status_to_task_status (map_task_status_to_bead_status "done") = "done" ∧
    map_bead_status_to_task_status (map_task_status_to_bead_status "dropped") = "dropped" ∧
    map_task_status_to_bead_status (map_bead_status_to_task_status "open") = "open" ∧
    map_task_status_to_bead_status (map_bead_status_to_task_status "in_progress") =
      "in_progress" ∧
    map_task_status_to_bead_status (map_bead_status_to_task_status "closed") = "closed" ∧
    map_task_status_to_bead_status (map_bead_status_to_task_status "wont_fix") =
      "wont_fix" ∧
    map_task_status_to_bead_status (map_bead_status_to_task_status "hooked") ≠ "hooked" ∧
    map_task_status_to_bead_status (map_bead_status_to_task_status "done") ≠ "done" ∧
    map_task_status_to_bead_status (map_bead_status_to_task_status "duplicate") ≠
      "duplicate" := by
  decide

/-- The reader yields exactly one record per well-formed line. -/
theorem filterMap_toRecord_length (lines : List JsonlLine) :
    (lines.filterMap JsonlLine.toRecord).length = lines.countP JsonlLine.isRecord := by
  induction lines with
  | nil => rfl
  | cons l ls ih =>
    cases l <;> simp [JsonlLine.toRecord, JsonlLine.isRecord, List.countP_cons, ih]

/-- C7: `read_beads_jsonl` surfaces a missing issues.jsonl as an error
rather than an empty result; on an existing file it returns the records of
the well-formed lines in order — exactly one per well-formed line, blank
and malformed lines silently skipped — so a file with 3 valid lines and 1
malformed line returns exactly 3 records. -/
theorem read_beads_jsonl_spec :
    read_beads_jsonl none = Except.error "FileNotFoundError: no issues.jsonl" ∧
    (∀ lines : List JsonlLine,
        read_beads_jsonl (some lines) = Except.ok (lines.filterMap JsonlLine.toRecord) ∧
        (lines.filterMap JsonlLine.toRecord).length = lines.countP JsonlLine.isRecord) ∧
    (∀ b1 b2 b3 : Bead, ∀ raw : String,
        read_beads_jsonl (some [JsonlLine.record b1, JsonlLine.record b2,
            JsonlLine.malformed raw, JsonlLine.record b3]) =
          Except.ok [b1, b2, b3]) := by
  refine ⟨rfl, fun lines => ⟨rfl, filterMap_toRecord_length lines⟩, fun b1 b2 b3 raw => ?_⟩
  simp [read_beads_jsonl, JsonlLine.toRecord]

/-- Shape of the stem-path output: one entry per set shown flag, ordered
stem, trunk, grove, and none of the direct-path entries. -/
theorem whyStemPart_spec (bud : Bud) (stems : List StemRow) (trunks : List TrunkRow)
    (groves : List GroveRow) :
    ((whyStemPart bud stems trunks groves).entries.countP WhyEntry.isStemLevel =
        (whyStemPart bud stems trunks groves).shown_stem.toNat) ∧
    ((whyStemPart bud stems trunks groves).entries.countP WhyEntry.isTrunkLevel =
        (whyStemPart bud stems trunks groves).shown_trunk.toNat) ∧
    ((whyStemPart bud stems trunks groves).entries.countP WhyEntry.isGroveLevel =
        (whyStemPart bud stems trunks groves).shown_grove.toNat) ∧
    (∀ i, WhyEntry.trunkDirect i ∉ (whyStemPart bud stems trunks groves).entries) ∧
    (∀ i, WhyEntry.groveViaDirectTrunk i ∉ (whyStemPart bud stems trunks groves).entries) ∧
    (∀ i, WhyEntry.groveDirect i ∉ (whyStemPart bud stems trunks groves).entries) := by
  unfold whyStemPart
  repeat' split
  all_goals
    simp [WhyEntry.isStemLevel, WhyEntry.isTrunkLevel, WhyEntry.isGroveLevel,
      List.countP_cons]

/-- Shape of the direct-trunk block output: runs only when no trunk is
shown yet, shows at most one trunk, shows a grove only when none was shown
yet, and never emits stem-path or direct-grove entries. -/
theorem whyTrunkDirectPart_spec (bud : Bud) (trunks : List TrunkRow)
    (groves : List GroveRow) (st sg : Bool) :
    ((whyTrunkDirectPart bud trunks groves st sg).entries.countP WhyEntry.isStemLevel = 0) ∧
    ((whyTrunkDirectPart bud trunks groves st sg).entries.countP WhyEntry.isTrunkLevel ≤ 1) ∧
    (st = true → (whyTrunkDirectPart bud trunks groves st sg).entries = []) ∧
    ((whyTrunkDirectPart bud trunks groves st sg).entries.countP WhyEntry.isGroveLevel =
        ((whyTrunkDirectPart bud trunks groves st sg).shown_grove && !sg).toNat) ∧
    (sg = true → (whyTrunkDirectPart bud trunks groves st sg).shown_grove = true) ∧
    (∀ i, WhyEntry.stemLine i ∉ (whyTrunkDirectPart bud trunks groves st sg).entries) ∧
    (∀ i, WhyEntry.trunkViaStem i ∉ (whyTrunkDirectPart bud trunks groves st sg).entries) ∧
    (∀ i, WhyEntry.groveViaStemTrunk i ∉
        (whyTrunkDirectPart bud trunks groves st sg).entries) ∧
    (∀ i, WhyEntry.groveDirect i ∉ (whyTrunkDirectPart bud trunks groves st sg).entries) := by
  unfold whyTrunkDirectPart
  repeat' split
  all_goals
    simp_all [WhyEntry.isStemLevel, WhyEntry.isTrunkLevel, WhyEntry.isGroveLevel,
      List.countP_cons]

/-- Shape of the direct-grove block output: runs only when no grove is
shown yet and emits at most one direct-grove entry. -/
theorem whyGroveDirectPart_spec (bud : Bud) (groves : List GroveRow) (sg : Bool) :
    ((whyGroveDirectPart bud groves sg).countP WhyEntry.isStemLevel = 0) ∧
    ((whyGroveDirectPart bud groves sg).countP WhyEntry.isTrunkLevel = 0) ∧
    ((whyGroveDirectPart bud groves sg).countP WhyEntry.isGroveLevel ≤ 1) ∧
    (sg = true → whyGroveDirectPart bud groves sg = []) ∧
    (∀ i, WhyEntry.trunkDirect i ∉ whyGroveDirectPart bud groves sg) ∧
    (∀ e ∈ whyGroveDirectPart bud groves sg, ∃ i, e = WhyEntry.groveDirect i) := by
  unfold whyGroveDirectPart
  repeat' split
  all_goals
    simp_all [WhyEntry.isStemLevel, WhyEntry.isTrunkLevel, WhyEntry.isGroveLevel,
      List.countP_cons]

/-- C8 counterexample: a Bud with a Stem link (the stem exists but carries
no trunk link) and a direct Trunk link.  `why` displays the Stem AND the
direct Trunk, so a direct Trunk link is displayed even though the Bud has a
Stem link, contradicting the claim that the direct Trunk is used only if
there is no Stem link. -/
theorem why_direct_trunk_counterexample :
    (⟨10, "budding", "b", some 1, some 2, none⟩ : Bud).stem_id = some 1 ∧
    why ⟨10, "budding", "b", some 1, some 2, none⟩ [⟨1, none⟩] [⟨2, none⟩] [] =
      [WhyEntry.stemLine 1, WhyEntry.trunkDirect 2] := by
  exact ⟨rfl, rfl⟩

/-- C8 amended: `why` displays each level (Stem, Trunk, Grove) at most
once even when reachable by several paths, and resolves in priority order
with fallback on display failure rather than on link absence: the direct
Trunk line is displayed only when the Stem path displayed no Trunk (no
Stem link, stem row missing, stem without trunk link, or trunk row
missing), and the direct Grove line only when no Grove was displayed
through either trunk path. -/
theorem why_levels_once_and_fallback (bud : Bud) (stems : List StemRow)
    (trunks : List TrunkRow) (groves : List GroveRow) :
    ((why bud stems trunks groves).countP WhyEntry.isStemLevel ≤ 1 ∧
     (why bud stems trunks groves).countP WhyEntry.isTrunkLevel ≤ 1 ∧
     (why bud stems trunks groves).countP WhyEntry.isGroveLevel ≤ 1) ∧
    (∀ i, WhyEntry.trunkDirect i ∈ why bud stems trunks groves →
        (whyStemPart bud stems trunks groves).shown_trunk = false) ∧
    (∀ i, WhyEntry.groveDirect i ∈ why bud stems trunks groves →
        (whyStemPart bud stems trunks groves).shown_grove = false ∧
        (whyTrunkDirectPart bud trunks groves
            (whyStemPart bud stems trunks groves).shown_trunk
            (whyStemPart bud stems trunks groves).shown_grove).shown_grove = false) := by
  obtain ⟨ha1, ha2, ha3, ha4, ha5, ha6⟩ := whyStemPart_spec bud stems trunks groves
  obtain ⟨hb1, hb2, hb3, hb4, hb5, hb6, hb7, hb8, hb9⟩ :=
    whyTrunkDirectPart_spec bud trunks groves
      (whyStemPart bud stems trunks groves).shown_trunk
      (whyStemPart bud stems trunks groves).shown_grove
  obtain ⟨hc1, hc2, hc3, hc4, hc5, hc6⟩ := whyGroveDirectPart_spec bud groves
    (whyTrunkDirectPart bud trunks groves
      (whyStemPart bud stems trunks groves).shown_trunk
      (whyStemPart bud stems trunks groves).shown_grove).shown_grove
  have hwhy : why bud stems trunks groves =
      (whyStemPart bud stems trunks groves).entries ++
      (whyTrunkDirectPart bud trunks groves
          (whyStemPart bud stems trunks groves).shown_trunk
          (whyStemPart bud stems trunks groves).shown_grove).entries ++
      whyGroveDirectPart bud groves
        (whyTrunkDirectPart bud trunks groves
            (whyStemPart bud stems trunks groves).shown_trunk
            (whyStemPart bud stems trunks groves).shown_grove).shown_grove := rfl
  refine ⟨⟨?_, ?_, ?_⟩, ?_, ?_⟩
  · rw [hwhy, List.countP_append, List.countP_append, ha1, hb1, hc1]
    cases (whyStemPart bud stems trunks groves).shown_stem <;> simp
  · rw [hwhy, List.countP_append, List.countP_append, ha2, hc2]
    rcases Bool.eq_false_or_eq_true (whyStemPart bud stems trunks groves).shown_trunk
      with hst | hst
    · rw [hb3 hst]
      have h1 : (whyStemPart bud stems trunks groves).shown_trunk.toNat = 1 := by
        simp [hst]
      rw [h1]
      simp
    · have h0 : (whyStemPart bud stems trunks groves).shown_trunk.toNat = 0 := by
        simp [hst]
      rw [h0]
      omega
  · rw [hwhy, List.countP_append, List.countP_append, ha3, hb4]
    rcases Bool.eq_false_or_eq_true
        ((whyTrunkDirectPart bud trunks groves
          (whyStemPart bud stems trunks groves).shown_trunk
          (whyStemPart bud stems trunks groves).shown_grove).shown_grove) with hbg | hbg
    · rw [hc4 hbg, List.countP_nil]
      have e2 : ((whyTrunkDirectPart bud trunks groves
          (whyStemPart bud stems trunks groves).shown_trunk
          (whyStemPart bud stems trunks groves).shown_grove).shown_grove &&
            !(whyStemPart bud stems trunks groves).shown_grove) =
          !(whyStemPart bud stems trunks groves).shown_grove := by
        rw [hbg, Bool.true_and]
      rw [e2]
      exact (by decide : ∀ x : Bool, x.toNat + ((!x).toNat + 0) ≤ 1) _
    · have hag : (whyStemPart bud stems trunks groves).shown_grove = false := by
        rcases Bool.eq_false_or_eq_true
            (whyStemPart bud stems trunks groves).shown_grove with h | h
        · rw [hb5 h] at hbg
          cases hbg
        · exact h
      have e1 : (whyStemPart bud stems trunks groves).shown_grove.toNat = 0 := by
        simp [hag]
      have e2 : ((whyTrunkDirectPart bud trunks groves
          (whyStemPart bud stems trunks groves).shown_trunk
          (whyStemPart bud stems trunks groves).shown_grove).shown_grove &&
            !(whyStemPart bud stems trunks groves).shown_grove) = false := by
        rw [hbg, Bool.false_and]
      rw [e1, e2]
      simp only [Bool.toNat_false]
      omega
  · intro i hi
    rw [hwhy] at hi
    rcases List.mem_append.mp hi with hi | hi
    · rcases List.mem_append.mp hi with hi | hi
      · exact absurd hi (ha4 i)
      · by_contra hcon
        have := hb3 (by simpa using hcon)
        rw [this] at hi
        simp at hi
    · exact absurd hi (hc5 i)
  · intro i hi
    rw [hwhy] at hi
    rcases List.mem_append.mp hi with hi | hi
    · rcases List.mem_append.mp hi with hi | hi
      · exact absurd hi (ha6 i)
      · exact absurd hi (hb9 i)
    · have hbg : (whyTrunkDirectPart bud trunks groves
          (whyStemPart bud stems trunks groves).shown_trunk
          (whyStemPart bud stems trunks groves).shown_grove).shown_grove = false := by
        by_contra hcon
        have := hc4 (by simpa using hcon)
        rw [this] at hi
        simp at hi
      refine ⟨?_, hbg⟩
      by_contra hcon
      exact absurd (hb5 (by simpa using hcon)) (by simp [hbg])

/-- C9 (code bug): `stem link` called with a stem id that does not exist
crashes with an uncaught NameError instead of printing the not-found
report, because line 644 tests the undefined name `s` while line 643 bound
the query result to `br`; the table is unchanged only because the crash
precedes the mutation, and the claimed report-and-continue behaviour never
occurs. -/
theorem link_missing_stem_crashes :
    (∀ st ∈ [(⟨1, "api", none⟩ : StemLinkRow)], st.id ≠ 999) ∧
    link [⟨1, "api", none⟩] 999 "/repo/.beads" =
      (LinkResult.nameError "s", [⟨1, "api", none⟩]) ∧
    (link [⟨1, "api", none⟩] 999 "/repo/.beads").1 ≠ LinkResult.notFoundReported := by
  exact ⟨by decide, rfl, by decide⟩

/-- C10 counterexample: on the non-peek path the UPDATE that sets
last_checked_at also rewrites updated_at through the ORM onupdate hook
(models.py lines 49, 72, 117, 169): a bud row with updated_at = 3 checked
at now = 5 ends with updated_at = 5, and the row the original claim
predicts — the old row with only last_checked_at changed, updated_at
still 3 — is not in the table, so a second field changes. -/
theorem context_updated_at_counterexample :
    (context ⟨[⟨"bud", 7, none, 3, "p"⟩], []⟩ "bud" 7 false 5 none).items =
      [⟨"bud", 7, some 5, 5, "p"⟩] ∧
    (⟨"bud", 7, some 5, 3, "p"⟩ : CtxItem) ∉
      (context ⟨[⟨"bud", 7, none, 3, "p"⟩], []⟩ "bud" 7 false 5 none).items := by
  exact ⟨rfl, by decide⟩

/-- C10 amended: for an existing item, `context` with --peek changes
nothing at all; without --peek it sets exactly that item's last_checked_at
to now and — through the updated_at onupdate hook firing on the same
UPDATE — its updated_at to now, keeps every other field of that item and
every other row as they were, keeps the item count, and appends exactly
one 'checked' activity_log row. -/
theorem context_peek_and_update (st : CtxState) (ty : String) (i : Nat) (now : Nat)
    (sid : Option String)
    (h : (st.items.find? (fun it => it.item_type == ty && it.id == i)).isSome) :
    context st ty i true now sid = st ∧
    (context st ty i false now sid).log = st.log ++ [⟨ty, i, "checked", none, sid⟩] ∧
    (context st ty i false now sid).items.length = st.items.length ∧
    (∀ it ∈ st.items, ¬(it.item_type = ty ∧ it.id = i) →
        it ∈ (context st ty i false now sid).items) ∧
    (∀ it ∈ st.items, it.item_type = ty ∧ it.id = i →
        { it with last_checked_at := some now, updated_at := now } ∈
          (context st ty i false now sid).items) := by
  obtain ⟨x, hx⟩ := Option.isSome_iff_exists.mp h
  refine ⟨by simp [context, hx], by simp [context, hx, log_activity], ?_, ?_, ?_⟩
  · simp [context, hx]
  · intro it hmem hcond
    simp only [context, hx]
    refine List.mem_map.mpr ⟨it, hmem, ?_⟩
    rw [if_neg]
    simp only [Bool.and_eq_true, beq_iff_eq]
    exact fun hc => hcond ⟨hc.1, hc.2⟩
  · intro it hmem hcond
    simp only [context, hx]
    refine List.mem_map.mpr ⟨it, hmem, ?_⟩
    rw [if_pos]
    simp only [Bool.and_eq_true, beq_iff_eq]
    exact ⟨hcond.1, hcond.2⟩

/-- C10 witness: the amended theorem applied to a one-bud, empty-log
state. -/
theorem context_peek_and_update_witness :
    ((([⟨"bud", 7, none, 3, "p"⟩] : List CtxItem).find?
        (fun it => it.item_type == "bud" && it.id == 7)).isSome) ∧
    (context ⟨[⟨"bud", 7, none, 3, "p"⟩], []⟩ "bud" 7 true 5 none =
        ⟨[⟨"bud", 7, none, 3, "p"⟩], []⟩ ∧
      (context ⟨[⟨"bud", 7, none, 3, "p"⟩], []⟩ "bud" 7 false 5 none).log =
        [] ++ [⟨"bud", 7, "checked", none, none⟩] ∧
      (context ⟨[⟨"bud", 7, none, 3, "p"⟩], []⟩ "bud" 7 false 5 none).items.length =
        ([⟨"bud", 7, none, 3, "p"⟩] : List CtxItem).length ∧
      (∀ it ∈ ([⟨"bud", 7, none, 3, "p"⟩] : List CtxItem),
          ¬(it.item_type = "bud" ∧ it.id = 7) →
          it ∈ (context ⟨[⟨"bud", 7, none, 3, "p"⟩], []⟩ "bud" 7 false 5 none).items) ∧
      (∀ it ∈ ([⟨"bud", 7, none, 3, "p"⟩] : List CtxItem),
          it.item_type = "bud" ∧ it.id = 7 →
          { it with last_checked_at := some 5, updated_at := 5 } ∈
            (context ⟨[⟨"bud", 7, none, 3, "p"⟩], []⟩ "bud" 7 false 5 none).items)) := by
  refine ⟨by decide, ?_⟩
  exact context_peek_and_update ⟨[⟨"bud", 7, none, 3, "p"⟩], []⟩ "bud" 7 5 none (by decide)

end Grove
